import Mathlib

/-!
Verification development for the mcp-devops client orchestrator.

Shallow embedding of the concurrency/session core of the repository:
the tool cache and fetch pipeline (`GetMCPTools`), the session manager
(`RefreshSession`, `HealthCheck`), the dialog-history trimming
(`trimDialogHistory`), the agent-dispatch error classification
(`isConnectionError`, `isToolTimeoutError`), the Alertmanager webhook
prompt builder (`handleWebhook`), and the WebSocket hub loop
(`Server.run`).

Conventions of the embedding:
  * time instants and durations are natural numbers of seconds
    (`time.Since(t)` becomes `now - t` on `Nat`);
  * Go's `strings.Contains` becomes infix-of on the character lists;
  * Go maps (`map[string]string`) become association lists; a `range`
    over a Go map observes an arbitrary permutation of the entries, so
    functions that iterate a map take the observed order as the list
    itself, and determinism questions quantify over permutations;
  * the results of the remote RPCs (`mcpp.GetTools`, `GetClient`) are
    supplied by oracles indexed by call number, so the pure functions
    below are the code with the I/O factored out;
  * goroutine interleavings touching the hub are serialized onto the
    hub's own loop exactly as in the source, and are modelled as event
    traces consumed by a step function.
-/

namespace McpDevops

/-- Go `strings.Contains(s, sub)`: `sub` occurs as a substring of `s`. -/
def goContains (s sub : String) : Bool :=
  decide (sub.toList <:+: s.toList)

/-! ## Tool cache and fetch pipeline (`mcp` package, `GetMCPTools`) -/

/-- Tools are opaque to the core; we carry only their identity. -/
abbrev ToolT := String

/-- Constant `toolCacheTTL = 10 * time.Minute`, in seconds. -/
def toolCacheTTL : Nat := 600

/-- The package-level tool-cache state: `toolsCache` (a nil or non-nil
slice) and `lastFetchTime`. -/
structure CacheState where
  toolsCache : Option (List ToolT)
  lastFetchTime : Nat
  deriving Repr, DecidableEq

/-- Oracle for the I/O performed by `GetMCPTools`: the result of the
`k`-th `clientManager.GetClient` call (`k = 0` is the initial
acquisition, `k = attempt+1` the re-acquisition before retry
`attempt+1`), and the result of `mcpp.GetTools` on attempt `i`. -/
structure FetchEnv where
  getClient : Nat → Except String Unit
  fetch : Nat → Except String (List ToolT)

/-- The connection-class test inside `GetMCPTools`'s retry loop. -/
def isConnectionFetchError (msg : String) : Bool :=
  goContains msg "Invalid session ID" ||
  goContains msg "connection" ||
  goContains msg "stream closed" ||
  goContains msg "deadline exceeded"

/-- Result of the retry loop: the outcome and the number of
`mcpp.GetTools` attempts actually performed. -/
structure LoopOut where
  result : Except String (List ToolT)
  attempts : Nat
  deriving Repr

/-- The `for attempt := 0; attempt < 4; attempt++` retry loop of
`GetMCPTools`. The first argument is the number of loop iterations
still allowed (starts at 4), the second the current attempt index.
On a connection-class error at the last allowed attempt the wrapped
error is returned; otherwise a fresh client is obtained (failure of
which returns immediately) and the loop continues; a
non-connection-class error returns immediately. -/
def fetchLoop (fetch : Nat → Except String (List ToolT))
    (getClient : Nat → Except String Unit) : Nat → Nat → LoopOut
  | 0, _ => ⟨Except.error "loop exhausted", 0⟩
  | k + 1, attempt =>
    match fetch attempt with
    | Except.ok tools => ⟨Except.ok tools, 1⟩
    | Except.error msg =>
      if isConnectionFetchError msg then
        if k = 0 then
          ⟨Except.error ("获取MCP工具失败，可能是超时或会话ID无效: " ++ msg), 1⟩
        else
          match getClient (attempt + 1) with
          | Except.error e => ⟨Except.error ("重新获取MCP客户端失败: " ++ e), 1⟩
          | Except.ok _ =>
            let rest := fetchLoop fetch getClient k (attempt + 1)
            ⟨rest.result, rest.attempts + 1⟩
      else ⟨Except.error ("获取MCP工具失败: " ++ msg), 1⟩

/-- Result of `GetMCPTools`: the returned value, the tool-cache state
after the call, and the number of `mcpp.GetTools` RPCs issued. -/
structure GetToolsOut where
  result : Except String (List ToolT)
  cache : CacheState
  rpcCalls : Nat
  deriving Repr

/-- Go's cache-hit test: `toolsCache != nil && len(toolsCache) > 0 &&
time.Since(lastFetchTime) < toolCacheTTL`. -/
def cacheFresh (now : Nat) (st : CacheState) : Bool :=
  match st.toolsCache with
  | none => false
  | some ts => decide (0 < ts.length) && decide (now - st.lastFetchTime < toolCacheTTL)

/-- Function `GetMCPTools`: cache check, initial client acquisition, retry loop,
empty-result check, cache update.  `now` is the call instant; the
update path records the fetch instant (time spent inside the loop is
not modelled, no claim depends on the recorded value). -/
def GetMCPTools (env : FetchEnv) (now : Nat) (st : CacheState)
    (forceRefresh : Bool) : GetToolsOut :=
  if !forceRefresh && cacheFresh now st then
    ⟨Except.ok (st.toolsCache.getD []), st, 0⟩
  else
    match env.getClient 0 with
    | Except.error e => ⟨Except.error ("获取MCP客户端失败: " ++ e), st, 0⟩
    | Except.ok _ =>
      let lo := fetchLoop env.fetch env.getClient 4 0
      match lo.result with
      | Except.error e => ⟨Except.error e, st, lo.attempts⟩
      | Except.ok tools =>
        if tools.length = 0 then
          ⟨Except.error "获取到的工具列表为空", st, lo.attempts⟩
        else
          ⟨Except.ok tools, ⟨some tools, now⟩, lo.attempts⟩

/-! ## Session manager (`ClientManager`) -/

/-- The connection-state enum of `ClientManager`. -/
inductive ConnState where
  | disconnected
  | connecting
  | connected
  | failed
  deriving Repr, DecidableEq

/-- The `30 * time.Minute` session expiry, in seconds. -/
def sessionExpiryTTL : Nat := 1800

/-- The `25 * time.Minute` soft-refresh age used by `needsReconnect`, in seconds. -/
def softRefreshAge : Nat := 1500

/-- The `20 * time.Minute` hard-refresh age used by `HealthCheck`, in seconds. -/
def hardRefreshAge : Nat := 1200

/-- The fields of `ClientManager` that the session-level operations
read or write.  `client` mirrors the `*client.SSEMCPClient` pointer
(`none` = nil); `expiryDeadline` is the instant at which the
session-expiry timer would fire (`none` = no timer armed). -/
structure CMState where
  connState : ConnState
  client : Option Unit
  sessionID : String
  lastConnectTime : Nat
  connectionFailed : Bool
  lastConnectionError : Option String
  expiryDeadline : Option Nat
  deriving Repr, DecidableEq

/-- Function `RefreshSession`: a nil client returns at once; otherwise the
expiry timer is reset (or created) for `now + 30min`, the last-connect
instant becomes `now`, and the failure flag and last connection error
are cleared. -/
def RefreshSession (now : Nat) (st : CMState) : CMState :=
  match st.client with
  | none => st
  | some _ =>
    { st with
      expiryDeadline := some (now + sessionExpiryTTL)
      lastConnectTime := now
      connectionFailed := false
      lastConnectionError := none }

/-- Function `HealthCheck`: false on the failure flag, a nil client, or an
empty session ID; true when the last-connect age is within 20 minutes.
When the age exceeds 20 minutes the source calls `RefreshSession()`
while still holding `connectLock`, and `RefreshSession` re-acquires
that same non-reentrant `sync.Mutex`: the call self-deadlocks and
never returns, modelled here as `none`.  A completed call returns
`some` of the boolean and the state after the call. -/
def HealthCheck (now : Nat) (st : CMState) : Option (Bool × CMState) :=
  if st.connectionFailed then some (false, st)
  else if st.client.isNone then some (false, st)
  else if st.sessionID = "" then some (false, st)
  else if hardRefreshAge < now - st.lastConnectTime then
    none
  else some (true, st)

/-- Function `needsReconnect`: failure flag set, nil client, or age beyond the
25-minute soft-refresh threshold. -/
def needsReconnect (now : Nat) (st : CMState) : Bool :=
  st.connectionFailed || st.client.isNone ||
    decide (softRefreshAge < now - st.lastConnectTime)

/-! ## Dialog history (`Application.trimDialogHistory`) -/

/-- Message roles of the `schema.Message` dialog entries. -/
inductive Role where
  | system
  | user
  | assistant
  | tool
  deriving Repr, DecidableEq

/-- A dialog entry. -/
structure Msg where
  role : Role
  content : String
  deriving Repr, DecidableEq

/-- Constant `maxHistoryItems = 10`. -/
def maxHistoryItems : Nat := 10

/-- Function `trimDialogHistory`: when the dialog exceeds `maxHistoryItems + 1`
entries, keep entry 0 and the last `maxHistoryItems` entries (Go:
`append(dialog[:1], dialog[len(dialog)-maxHistoryItems:]...)`). -/
def trimDialogHistory (dialog : List Msg) : List Msg :=
  if maxHistoryItems + 1 < dialog.length then
    dialog.take 1 ++ dialog.drop (dialog.length - maxHistoryItems)
  else dialog

/-! ## Agent-dispatch error classification (`processCommand`) -/

/-- Predicate `isConnectionError` on a non-nil error's message. -/
def isConnectionError (msg : String) : Bool :=
  goContains msg "connection" ||
  goContains msg "timeout" ||
  goContains msg "EOF" ||
  goContains msg "Invalid session ID"

/-- Predicate `isToolTimeoutError` on a non-nil error's message. -/
def isToolTimeoutError (msg : String) : Bool :=
  (goContains msg "deadline exceeded" ||
   goContains msg "context deadline exceeded") &&
  (goContains msg "execute node[tools]" ||
   goContains msg "tool call" ||
   goContains msg "invoke tool")

/-- The user-visible reply chosen by `processCommand` for a failed
agent turn. -/
inductive ReplyKind where
  | reconnect
  | simplify
  | generic
  deriving Repr, DecidableEq

/-- The `generateErr != nil` branch of `processCommand`: connection
errors are checked first (reply announces reconnection and
`MarkConnectionFailed` is called), then tool-timeout errors (reply
suggests simplification, no failure marking), otherwise a generic
failure reply.  Returns the reply kind and whether
`MarkConnectionFailed` was called. -/
def classifyGenerateError (msg : String) : ReplyKind × Bool :=
  if isConnectionError msg then (ReplyKind.reconnect, true)
  else if isToolTimeoutError msg then (ReplyKind.simplify, false)
  else (ReplyKind.generic, false)

/-! ## Webhook ingress (`handleWebhook` prompt construction)

Go iterates `alert.Labels` (a `map[string]string`) with `range` when
building the other-labels section; map iteration order is not fixed,
so the label list stored in `Alert.labels` below records the order a
particular build observed, and two builds of one payload are two
`Alert` values with permuted `labels`. -/

/-- One Alertmanager alert, fields used by `handleWebhook`.  The two
timestamps carry their RFC3339 rendering (time formatting is not
modelled). -/
structure Alert where
  status : String
  labels : List (String × String)
  annotations : List (String × String)
  startsAt : String
  endsAt : String
  deriving Repr, DecidableEq

/-- The Alertmanager webhook message, fields used by `handleWebhook`. -/
structure WebhookMsg where
  receiver : String
  status : String
  alerts : List Alert
  deriving Repr, DecidableEq

/-- The fixed `criticalLabels` slice of `handleWebhook`. -/
def criticalLabelKeys : List String :=
  ["alertname", "severity", "namespace", "pod", "deployment", "service", "job"]

/-- Go map indexing `m[k]` (zero value `""` when absent). -/
def mapIndex (m : List (String × String)) (k : String) : String :=
  (List.lookup k m).getD ""

/-- Go `strings.TrimSuffix(s, ", ")`: drop the two-character suffix when
present (expressed on the character list so that it evaluates). -/
def trimCommaSuffix (s : String) : String :=
  if [',', ' '] <:+ s.toList then
    String.mk (s.toList.take (s.toList.length - 2))
  else s

/-- The critical-labels detail string: the critical keys in their
fixed order, each present key contributing `key=val, `. -/
def labelDetails (labels : List (String × String)) : String :=
  criticalLabelKeys.foldl
    (fun acc key =>
      match List.lookup key labels with
      | some v => acc ++ key ++ "=" ++ v ++ ", "
      | none => acc) ""

/-- The non-critical label pairs, in the observed iteration order. -/
def otherLabelPairs (labels : List (String × String)) : List (String × String) :=
  labels.filter (fun p => !(criticalLabelKeys.contains p.1))

/-- The other-labels detail string, in the observed iteration order. -/
def otherLabelDetails (labels : List (String × String)) : String :=
  (otherLabelPairs labels).foldl (fun acc p => acc ++ p.1 ++ "=" ++ p.2 ++ ", ") ""

/-- The summary resolution: `annotations["summary"]`, else
`annotations["description"]`, else `"无摘要信息"`. -/
def resolveSummary (annotations : List (String × String)) : String :=
  let s := mapIndex annotations "summary"
  let s := if s = "" then mapIndex annotations "description" else s
  if s = "" then "无摘要信息" else s

/-- The block `handleWebhook` emits for alert number `i` (0-based). -/
def alertBlock (i : Nat) (a : Alert) : String :=
  let base :=
    "\n告警 " ++ toString (i + 1) ++ " [" ++ a.status ++ "]:\n" ++
    "  摘要: " ++ resolveSummary a.annotations ++ "\n" ++
    "  开始时间: " ++ a.startsAt ++ "\n"
  let base := if a.status = "resolved" then base ++ "  结束时间: " ++ a.endsAt ++ "\n" else base
  let ld := labelDetails a.labels
  let base := if 0 < ld.length then base ++ "  关键标签: " ++ trimCommaSuffix ld ++ "\n" else base
  let od := otherLabelDetails a.labels
  if 0 < od.length then base ++ "  其他标签: " ++ trimCommaSuffix od ++ "\n" else base

/-- The full prompt string `handleWebhook` builds from a decoded
payload. -/
def buildWebhookPrompt (m : WebhookMsg) : String :=
  "我收到了来自 Alertmanager (" ++ m.receiver ++ ") 的告警通知，状态为 " ++ m.status ++
    "，包含 " ++ toString m.alerts.length ++ " 条告警信息。\n" ++
  "请分析以下告警信息：\n" ++
  String.join (m.alerts.enum.map (fun p => alertBlock p.1 p.2)) ++
  "\n请对上述告警进行分析总结，在告警中含有信息，你可以先去查看对应资源的日志和事件，仔细分析之后 ，再使用【发送企业微信消息】工具将分析结果发送出去。"

/-- Two decoded payloads are the same wire payload when they agree on
everything except possibly the order in which the label maps are
iterated. -/
def sameAlertPayload (a b : Alert) : Prop :=
  a.status = b.status ∧ a.annotations = b.annotations ∧
  a.startsAt = b.startsAt ∧ a.endsAt = b.endsAt ∧ a.labels.Perm b.labels

/-- Same wire payload, component-wise over the alerts. -/
def samePayload (m₁ m₂ : WebhookMsg) : Prop :=
  m₁.receiver = m₂.receiver ∧ m₁.status = m₂.status ∧
  List.Forall₂ sameAlertPayload m₁.alerts m₂.alerts

/-! ## WebSocket hub (`Server.run`) -/

/-- Go `make(chan []byte, 256)`: the outbound-queue capacity. -/
def sendQueueCapacity : Nat := 256

/-- The hub's client set: client identity paired with the contents of
its outbound queue. -/
abbrev HubState := List (Nat × List String)

/-- The broadcast case of `Server.run`: each client is offered the
message by a non-blocking send; a client whose queue is full has its
queue closed and is deleted from the set.  Returns the surviving set
and the identities whose queues were closed. -/
def broadcastStep (msg : String) (clients : HubState) : HubState × List Nat :=
  (clients.filterMap (fun c =>
      if c.2.length < sendQueueCapacity then some (c.1, c.2 ++ [msg]) else none),
   clients.filterMap (fun c =>
      if c.2.length < sendQueueCapacity then none else some c.1))

/-- The events the hub loop serializes: the three control channels,
plus the write-pump consuming one queued message (`drain`). -/
inductive HubEvent where
  | register (c : Nat)
  | unregister (c : Nat)
  | broadcast (msg : String)
  | drain (c : Nat)
  deriving Repr, DecidableEq

/-- One iteration of `Server.run` (and, for `drain`, the write-pump's
receive).  Returns the new client set and the identities whose queues
were closed during the step; a queue is closed exactly on the
`close(client.send)` calls of the source: in the unregister case when
the client is still in the set, and in the broadcast case on a full
queue. -/
def hubStep (st : HubState) : HubEvent → HubState × List Nat
  | HubEvent.register c => ((c, []) :: st, [])
  | HubEvent.unregister c =>
    if (st.map Prod.fst).contains c then
      (st.filter (fun p => p.1 ≠ c), [c])
    else (st, [])
  | HubEvent.broadcast msg => broadcastStep msg st
  | HubEvent.drain c =>
    (st.map (fun p => if p.1 = c then (p.1, p.2.drop 1) else p), [])

/-- Run the hub loop over a trace of events, collecting every queue
close it performs. -/
def runHub (st : HubState) : List HubEvent → HubState × List Nat
  | [] => (st, [])
  | e :: evs =>
    let s1 := hubStep st e
    let s2 := runHub s1.1 evs
    (s2.1, s1.2 ++ s2.2)

/-- Number of entries for client `c` in the set. -/
def countId (c : Nat) (st : HubState) : Nat :=
  (st.map Prod.fst).count c

/-- How many times the queue of client `c` is closed while the hub
consumes `evs` from state `st`. -/
def closeCount (c : Nat) (st : HubState) (evs : List HubEvent) : Nat :=
  (runHub st evs).2.count c

/-! ## Theorems -/

/-- In a set with no duplicate identities, two entries sharing an
identity coincide. -/
theorem snd_eq_of_nodup_fst {l : HubState} (hnd : (l.map Prod.fst).Nodup)
    {a : Nat} {b c : List String} (h1 : (a, b) ∈ l) (h2 : (a, c) ∈ l) : b = c := by
  induction l with
  | nil => simp at h1
  | cons x t ih =>
    simp only [List.map_cons, List.nodup_cons] at hnd
    rcases List.mem_cons.mp h1 with h1 | h1 <;>
      rcases List.mem_cons.mp h2 with h2 | h2
    · exact (Prod.ext_iff.mp (h1.trans h2.symm)).2
    · exfalso
      apply hnd.1
      rw [← h1]
      show a ∈ t.map Prod.fst
      exact List.mem_map_of_mem Prod.fst h2
    · exfalso
      apply hnd.1
      rw [← h2]
      show a ∈ t.map Prod.fst
      exact List.mem_map_of_mem Prod.fst h1
    · exact ih hnd.2 h1 h2

/-- Association-list lookup is insensitive to permutation when the
keys are distinct. -/
theorem lookup_eq_of_perm (k : String) {l₁ l₂ : List (String × String)}
    (hp : l₁.Perm l₂) (hnd : (l₁.map Prod.fst).Nodup) :
    List.lookup k l₁ = List.lookup k l₂ := by
  induction hp with
  | nil => rfl
  | cons x hp ih =>
    rcases x with ⟨a, b⟩
    simp only [List.map_cons, List.nodup_cons] at hnd
    cases hk : k == a with
    | true => simp [List.lookup, hk]
    | false => simpa [List.lookup, hk] using ih hnd.2
  | swap x y l =>
    rcases x with ⟨a, b⟩
    rcases y with ⟨c, d⟩
    simp only [List.map_cons, List.nodup_cons, List.mem_cons] at hnd
    have hac : c ≠ a := fun h => hnd.1 (Or.inl h)
    cases hk : k == c with
    | true =>
      have hk2 : (k == a) = false := by
        have := eq_of_beq hk
        subst this
        simpa using hac
      simp [List.lookup, hk, hk2]
    | false =>
      cases hk2 : k == a with
      | true => simp [List.lookup, hk, hk2]
      | false => simp [List.lookup, hk, hk2]
  | trans h1 h2 ih1 ih2 =>
    exact (ih1 hnd).trans (ih2 ((h1.map Prod.fst).nodup hnd))

/-- The critical-labels string depends on the label map only through
lookups. -/
theorem labelDetails_eq_of_lookup {l₁ l₂ : List (String × String)}
    (h : ∀ k, List.lookup k l₁ = List.lookup k l₂) :
    labelDetails l₁ = labelDetails l₂ := by
  unfold labelDetails
  have hgen : ∀ (keys : List String) (acc : String),
      keys.foldl (fun acc key =>
        match List.lookup key l₁ with
        | some v => acc ++ key ++ "=" ++ v ++ ", "
        | none => acc) acc =
      keys.foldl (fun acc key =>
        match List.lookup key l₂ with
        | some v => acc ++ key ++ "=" ++ v ++ ", "
        | none => acc) acc := by
    intro keys
    induction keys with
    | nil => intro _; rfl
    | cons k ks ih =>
      intro acc
      simp only [List.foldl_cons, h k]
      exact ih _
  exact hgen criticalLabelKeys ""

/-- Component lemma for the amended C8: along the alert lists of one
payload, the critical-label strings agree and the other-label pair
lists are permutations. -/
theorem alerts_label_sections : ∀ {as bs : List Alert},
    List.Forall₂ sameAlertPayload as bs →
    (∀ a ∈ as, (a.labels.map Prod.fst).Nodup) →
    List.Forall₂ (fun a b =>
      labelDetails a.labels = labelDetails b.labels ∧
      (otherLabelPairs a.labels).Perm (otherLabelPairs b.labels)) as bs := by
  intro as bs hf
  induction hf with
  | nil => intro _; exact List.Forall₂.nil
  | cons hab hrest ih =>
    rename_i a b as' bs'
    intro hnd
    refine List.Forall₂.cons ?_ (ih (fun x hx => hnd x (List.mem_cons_of_mem _ hx)))
    obtain ⟨-, -, -, -, hperm⟩ := hab
    have hnda := hnd a (List.mem_cons_self _ _)
    exact ⟨labelDetails_eq_of_lookup (fun k => lookup_eq_of_perm k hperm hnda),
           hperm.filter _⟩

/-- An alert whose build observed the label map as team-then-zone. -/
def alertTeamFirst : Alert :=
  ⟨"firing", [("team", "db"), ("zone", "eu")], [("summary", "s")],
   "2024-01-01T00:00:00Z", ""⟩

/-- The same alert when the map iteration yielded zone-then-team. -/
def alertZoneFirst : Alert :=
  ⟨"firing", [("zone", "eu"), ("team", "db")], [("summary", "s")],
   "2024-01-01T00:00:00Z", ""⟩

/-- The payload carrying `alertTeamFirst`. -/
def payloadTeamFirst : WebhookMsg := ⟨"r", "firing", [alertTeamFirst]⟩

/-- The payload carrying `alertZoneFirst`. -/
def payloadZoneFirst : WebhookMsg := ⟨"r", "firing", [alertZoneFirst]⟩

/-- C8 counterexample: one fixed payload with two non-critical labels,
iterated in the two orders Go's map `range` may produce, yields two
different prompt strings — the prompt is not deterministic for a fixed
payload, and non-critical labels have no insertion order to preserve. -/
theorem webhookPrompt_counterexample :
    samePayload payloadTeamFirst payloadZoneFirst ∧
    buildWebhookPrompt payloadTeamFirst ≠ buildWebhookPrompt payloadZoneFirst := by
  constructor
  · exact ⟨rfl, rfl,
      List.Forall₂.cons ⟨rfl, rfl, rfl, rfl, List.Perm.swap _ _ _⟩ List.Forall₂.nil⟩
  · decide

/-- C8 amended: for a fixed payload (label maps with distinct keys),
every build yields the same critical-label section — the critical
labels in the fixed order alertname, severity, namespace, pod,
deployment, service, job — and other-label sections containing the
same label pairs, though in the map-iteration order of that build,
which Go does not fix. -/
theorem webhookPrompt_label_sections (m₁ m₂ : WebhookMsg)
    (h : samePayload m₁ m₂)
    (hnd : ∀ a ∈ m₁.alerts, (a.labels.map Prod.fst).Nodup) :
    List.Forall₂ (fun a b =>
      labelDetails a.labels = labelDetails b.labels ∧
      (otherLabelPairs a.labels).Perm (otherLabelPairs b.labels))
      m₁.alerts m₂.alerts :=
  alerts_label_sections h.2.2 hnd

/-- Concrete instantiation of `webhookPrompt_label_sections` on the two
iteration orders of the counterexample payload. -/
theorem webhookPrompt_label_sections_witness :
    List.Forall₂ (fun a b =>
      labelDetails a.labels = labelDetails b.labels ∧
      (otherLabelPairs a.labels).Perm (otherLabelPairs b.labels))
      payloadTeamFirst.alerts payloadZoneFirst.alerts :=
  webhookPrompt_label_sections payloadTeamFirst payloadZoneFirst
    ⟨rfl, rfl,
      List.Forall₂.cons ⟨rfl, rfl, rfl, rfl, List.Perm.swap _ _ _⟩ List.Forall₂.nil⟩
    (by decide)

/-- C5: in a broadcast over a set with distinct client identities,
every client whose outbound queue is full is closed and removed from
the set before the broadcast completes, and every client with queue
space is offered the message (its queue gains the message) and is not
closed. -/
theorem broadcastStep_spec (msg : String) (clients : HubState) (id : Nat)
    (q : List String) (hmem : (id, q) ∈ clients)
    (hnd : (clients.map Prod.fst).Nodup) :
    (sendQueueCapacity ≤ q.length →
      id ∈ (broadcastStep msg clients).2 ∧
      id ∉ (broadcastStep msg clients).1.map Prod.fst) ∧
    (q.length < sendQueueCapacity →
      (id, q ++ [msg]) ∈ (broadcastStep msg clients).1 ∧
      id ∉ (broadcastStep msg clients).2) := by
  unfold broadcastStep
  constructor
  · intro hfull
    constructor
    · exact List.mem_filterMap.mpr ⟨(id, q), hmem, by simp [Nat.not_lt.mpr hfull]⟩
    · intro hin
      obtain ⟨p, hp, hfst⟩ := List.mem_map.mp hin
      obtain ⟨⟨c1, c2⟩, hc, hoff⟩ := List.mem_filterMap.mp hp
      by_cases hlt : c2.length < sendQueueCapacity
      · simp only [if_pos hlt] at hoff
        obtain rfl := Option.some.inj hoff
        simp only at hfst
        subst hfst
        have h2q := snd_eq_of_nodup_fst hnd hc hmem
        rw [h2q] at hlt
        omega
      · simp [hlt] at hoff
  · intro hlt
    constructor
    · exact List.mem_filterMap.mpr ⟨(id, q), hmem, by simp [hlt]⟩
    · intro hin
      obtain ⟨⟨c1, c2⟩, hc, hoff⟩ := List.mem_filterMap.mp hin
      by_cases hl2 : c2.length < sendQueueCapacity
      · simp [hl2] at hoff
      · simp only [if_neg hl2] at hoff
        obtain rfl := Option.some.inj hoff
        have h2q := snd_eq_of_nodup_fst hnd hc hmem
        rw [h2q] at hl2
        omega

/-- A hub with a saturated client 1 (256 queued messages) and an idle
client 2. -/
def hubTwoClients : HubState := [(1, List.replicate 256 "m"), (2, [])]

set_option maxRecDepth 4096 in
/-- Concrete instantiation of `broadcastStep_spec`: the saturated
client is closed and evicted by a broadcast. -/
theorem broadcastStep_spec_witness :
    1 ∈ (broadcastStep "hi" hubTwoClients).2 ∧
    1 ∉ (broadcastStep "hi" hubTwoClients).1.map Prod.fst :=
  (broadcastStep_spec "hi" hubTwoClients 1 (List.replicate 256 "m")
      (List.mem_cons_self _ _) (by simp [hubTwoClients])).1
    (by rw [List.length_replicate]; decide)

/-- Removing one identity from the set zeroes its entry count and
preserves every other count. -/
theorem countId_filter_ne (c d : Nat) (st : HubState) :
    countId c (st.filter (fun p => p.1 ≠ d)) =
      if c = d then 0 else countId c st := by
  induction st with
  | nil => simp [countId]
  | cons x t ih =>
    by_cases hcd : c = d <;> by_cases hx : x.1 = d <;>
      simp [countId, List.filter_cons, List.count_cons, hx, hcd] at ih ⊢ <;>
      omega

/-- A broadcast partitions each identity's entries between the closed
list and the surviving set. -/
theorem broadcast_count (m : String) (c : Nat) (st : HubState) :
    (broadcastStep m st).2.count c + countId c (broadcastStep m st).1 =
      countId c st := by
  induction st with
  | nil => simp [broadcastStep, countId]
  | cons x t ih =>
    by_cases hx : x.2.length < sendQueueCapacity <;>
      simp [broadcastStep, countId, List.filterMap_cons, hx, List.count_cons]
        at ih ⊢ <;>
      omega

/-- The write-pump consuming a message does not change the identity
multiset of the set. -/
theorem countId_drain (c d : Nat) (st : HubState) :
    countId c (st.map (fun p => if p.1 = d then (p.1, p.2.drop 1) else p)) =
      countId c st := by
  induction st with
  | nil => rfl
  | cons x t ih =>
    by_cases hx : x.1 = d <;>
      simp [countId, List.count_cons, hx] at ih ⊢ <;> omega

/-- Reduction of the hub step on a register event. -/
theorem hubStep_register (d : Nat) (st : HubState) :
    hubStep st (HubEvent.register d) = ((d, []) :: st, []) := rfl

/-- Reduction of the hub step on an unregister event for a present
client. -/
theorem hubStep_unreg_in (d : Nat) (st : HubState)
    (h : (st.map Prod.fst).contains d = true) :
    hubStep st (HubEvent.unregister d) =
      (st.filter (fun p => p.1 ≠ d), [d]) := by
  simp only [hubStep, h, if_true]

/-- Reduction of the hub step on an unregister event for an absent
client. -/
theorem hubStep_unreg_out (d : Nat) (st : HubState)
    (h : (st.map Prod.fst).contains d = false) :
    hubStep st (HubEvent.unregister d) = (st, []) := by
  simp only [hubStep, h, Bool.false_eq_true, if_false]

/-- Reduction of the hub step on a broadcast event. -/
theorem hubStep_broadcast (m : String) (st : HubState) :
    hubStep st (HubEvent.broadcast m) = broadcastStep m st := rfl

/-- Reduction of the hub step on a drain event. -/
theorem hubStep_drain (d : Nat) (st : HubState) :
    hubStep st (HubEvent.drain d) =
      (st.map (fun p => if p.1 = d then (p.1, p.2.drop 1) else p), []) := rfl

/-- Unfolding of the hub run on a non-empty trace. -/
theorem runHub_cons (st : HubState) (e : HubEvent) (evs : List HubEvent) :
    runHub st (e :: evs) =
      ((runHub (hubStep st e).1 evs).1,
       (hubStep st e).2 ++ (runHub (hubStep st e).1 evs).2) := rfl

/-- While a client is absent from the set and no register event for it
arrives, the hub never closes its queue and it stays absent. -/
theorem runHub_count_zero (c : Nat) : ∀ (evs : List HubEvent) (st : HubState),
    countId c st = 0 → (∀ e ∈ evs, e ≠ HubEvent.register c) →
    (runHub st evs).2.count c = 0 ∧ countId c (runHub st evs).1 = 0 := by
  intro evs
  induction evs with
  | nil => intro st h0 _; exact ⟨rfl, h0⟩
  | cons e evs ih =>
    intro st h0 hreg
    have hregs : ∀ e' ∈ evs, e' ≠ HubEvent.register c :=
      fun e' he' => hreg e' (List.mem_cons_of_mem _ he')
    rw [runHub_cons]
    cases e with
    | register d =>
      have hdc : (d == c) = false := by
        have h : d ≠ c := fun h => hreg _ (List.mem_cons_self _ _) (by rw [h])
        simpa using h
      rw [hubStep_register]
      have h0' : countId c ((d, ([] : List String)) :: st) = 0 := by
        simp only [countId, List.map_cons, List.count_cons, hdc, if_false]
        simpa [countId] using h0
      obtain ⟨hz1, hz2⟩ := ih _ h0' hregs
      exact ⟨by simpa using hz1, hz2⟩
    | unregister d =>
      cases hcon : (st.map Prod.fst).contains d with
      | false =>
        rw [hubStep_unreg_out d st hcon]
        obtain ⟨hz1, hz2⟩ := ih _ h0 hregs
        exact ⟨by simpa using hz1, hz2⟩
      | true =>
        have hdc : (d == c) = false := by
          have hmem := List.mem_of_elem_eq_true hcon
          have h : d ≠ c := by
            intro h; subst h
            exact absurd hmem (List.count_eq_zero.mp h0)
          simpa using h
        rw [hubStep_unreg_in d st hcon]
        have h0' : countId c (st.filter (fun p => p.1 ≠ d)) = 0 := by
          rw [countId_filter_ne]
          split
          · rfl
          · exact h0
        obtain ⟨hz1, hz2⟩ := ih _ h0' hregs
        refine ⟨?_, hz2⟩
        rw [List.count_append, hz1]
        simp [List.count_cons, hdc]
    | broadcast m =>
      have hbc := broadcast_count m c st
      rw [h0] at hbc
      have hcl : (broadcastStep m st).2.count c = 0 := by omega
      have hsv : countId c (broadcastStep m st).1 = 0 := by omega
      rw [hubStep_broadcast]
      obtain ⟨hz1, hz2⟩ := ih _ hsv hregs
      refine ⟨?_, hz2⟩
      rw [List.count_append, hz1, hcl]
    | drain d =>
      rw [hubStep_drain]
      have h0' := (countId_drain c d st).trans h0
      obtain ⟨hz1, hz2⟩ := ih _ h0' hregs
      exact ⟨by simpa using hz1, hz2⟩

/-- While a client has exactly one entry in the set and no register
event for it arrives, the hub closes its queue at most once, and
exactly once if an unregister event for it arrives. -/
theorem runHub_count_one (c : Nat) : ∀ (evs : List HubEvent) (st : HubState),
    countId c st = 1 → (∀ e ∈ evs, e ≠ HubEvent.register c) →
    (runHub st evs).2.count c ≤ 1 ∧
    (HubEvent.unregister c ∈ evs → (runHub st evs).2.count c = 1) := by
  intro evs
  induction evs with
  | nil => intro st _ _; exact ⟨Nat.zero_le 1, by simp⟩
  | cons e evs ih =>
    intro st h1 hreg
    have hregs : ∀ e' ∈ evs, e' ≠ HubEvent.register c :=
      fun e' he' => hreg e' (List.mem_cons_of_mem _ he')
    rw [runHub_cons]
    cases e with
    | register d =>
      have hdc : (d == c) = false := by
        have h : d ≠ c := fun h => hreg _ (List.mem_cons_self _ _) (by rw [h])
        simpa using h
      rw [hubStep_register]
      have h1' : countId c ((d, ([] : List String)) :: st) = 1 := by
        simp only [countId, List.map_cons, List.count_cons, hdc, if_false]
        simpa [countId] using h1
      obtain ⟨ho1, ho2⟩ := ih _ h1' hregs
      refine ⟨by simpa using ho1, ?_⟩
      intro hmem
      have : HubEvent.unregister c ∈ evs := by
        rcases List.mem_cons.mp hmem with h | h
        · exact absurd h (by simp)
        · exact h
      simpa using ho2 this
    | unregister d =>
      by_cases hdc : d = c
      · subst hdc
        have hcon : (st.map Prod.fst).contains d = true := by
          apply List.elem_eq_true_of_mem
          apply List.count_pos_iff.mp
          unfold countId at h1
          omega
        rw [hubStep_unreg_in d st hcon]
        have h0' : countId d (st.filter (fun p => p.1 ≠ d)) = 0 := by
          rw [countId_filter_ne]; simp
        have hz := runHub_count_zero d evs _ h0' hregs
        have hcnt : ([d] ++ (runHub (st.filter (fun p => p.1 ≠ d)) evs).2).count d = 1 := by
          rw [List.count_append, hz.1]
          simp
        exact ⟨le_of_eq hcnt, fun _ => hcnt⟩
      · have hdcb : (d == c) = false := by simpa using hdc
        cases hcon : (st.map Prod.fst).contains d with
        | false =>
          rw [hubStep_unreg_out d st hcon]
          obtain ⟨ho1, ho2⟩ := ih _ h1 hregs
          refine ⟨by simpa using ho1, ?_⟩
          intro hmem
          have hm : HubEvent.unregister c ∈ evs := by
            rcases List.mem_cons.mp hmem with h | h
            · exact absurd (HubEvent.unregister.inj h.symm) hdc
            · exact h
          simpa using ho2 hm
        | true =>
          rw [hubStep_unreg_in d st hcon]
          have h1' : countId c (st.filter (fun p => p.1 ≠ d)) = 1 := by
            rw [countId_filter_ne]
            split
            · rename_i h; exact absurd h.symm hdc
            · exact h1
          obtain ⟨ho1, ho2⟩ := ih _ h1' hregs
          have hd0 : ([d] ++ (runHub (st.filter (fun p => p.1 ≠ d)) evs).2).count c =
              (runHub (st.filter (fun p => p.1 ≠ d)) evs).2.count c := by
            rw [List.count_append]
            simp [List.count_cons, hdcb]
          refine ⟨by rw [hd0]; exact ho1, ?_⟩
          intro hmem
          have hm : HubEvent.unregister c ∈ evs := by
            rcases List.mem_cons.mp hmem with h | h
            · exact absurd (HubEvent.unregister.inj h.symm) hdc
            · exact h
          rw [hd0]
          exact ho2 hm
    | broadcast m =>
      have hbc := broadcast_count m c st
      rw [h1] at hbc
      rw [hubStep_broadcast]
      cases hcl : (broadcastStep m st).2.count c with
      | zero =>
        have hsv : countId c (broadcastStep m st).1 = 1 := by omega
        obtain ⟨ho1, ho2⟩ := ih _ hsv hregs
        rw [List.count_append, hcl]
        refine ⟨by simpa using ho1, ?_⟩
        intro hmem
        have hm : HubEvent.unregister c ∈ evs := by
          rcases List.mem_cons.mp hmem with h | h
          · exact absurd h (by simp)
          · exact h
        simpa using ho2 hm
      | succ n =>
        have hn : n = 0 := by omega
        subst hn
        have hsv : countId c (broadcastStep m st).1 = 0 := by omega
        have hz := runHub_count_zero c evs _ hsv hregs
        rw [List.count_append, hcl, hz.1]
        exact ⟨le_refl 1, fun _ => rfl⟩
    | drain d =>
      rw [hubStep_drain]
      have h1' := (countId_drain c d st).trans h1
      obtain ⟨ho1, ho2⟩ := ih _ h1' hregs
      refine ⟨by simpa using ho1, ?_⟩
      intro hmem
      have hm : HubEvent.unregister c ∈ evs := by
        rcases List.mem_cons.mp hmem with h | h
        · exact absurd h (by simp)
        · exact h
      simpa using ho2 hm

/-- Running the hub over a concatenated trace composes the states and
concatenates the closes. -/
theorem runHub_append (st : HubState) (l1 l2 : List HubEvent) :
    runHub st (l1 ++ l2) =
      ((runHub (runHub st l1).1 l2).1,
       (runHub st l1).2 ++ (runHub (runHub st l1).1 l2).2) := by
  induction l1 generalizing st with
  | nil => simp [runHub]
  | cons e l1 ih => simp [runHub, ih, List.append_assoc]

/-- C6: over any interleaving of hub events in which a client is
registered once (and absent before that), its outbound queue is closed
at most once, and exactly once if the read-pump's unregister event
follows — a second close never happens, whether eviction during a
broadcast or the unregister comes first. -/
theorem hub_close_once (c : Nat) (st0 : HubState) (pre post : List HubEvent)
    (h0 : countId c st0 = 0)
    (hpre : ∀ e ∈ pre, e ≠ HubEvent.register c)
    (hpost : ∀ e ∈ post, e ≠ HubEvent.register c) :
    closeCount c st0 (pre ++ HubEvent.register c :: post) ≤ 1 ∧
    (HubEvent.unregister c ∈ post →
      closeCount c st0 (pre ++ HubEvent.register c :: post) = 1) := by
  have hz := runHub_count_zero c pre st0 h0 hpre
  have hst1 : countId c ((c, ([] : List String)) :: (runHub st0 pre).1) = 1 := by
    have hz2 := hz.2
    unfold countId at hz2 ⊢
    simp [List.count_cons, hz2]
  have hone := runHub_count_one c post _ hst1 hpost
  unfold closeCount
  rw [runHub_append]
  simpa [runHub, hubStep, List.count_append, hz.1] using hone

/-- Concrete instantiation of `hub_close_once`: register, broadcast,
then unregister yields exactly one close. -/
theorem hub_close_once_witness :
    closeCount 7 [] (HubEvent.register 7 ::
        [HubEvent.broadcast "x", HubEvent.unregister 7]) = 1 :=
  (hub_close_once 7 [] []
      [HubEvent.broadcast "x", HubEvent.unregister 7] rfl
      (by decide) (by decide)).2 (by decide)

/-- C1: with `forceRefresh = false`, a non-empty cached snapshot whose
age is below the 10-minute TTL is returned as-is: the result is the
cached snapshot, the cache state (snapshot and fetch instant) is
unchanged, and no `mcpp.GetTools` RPC is issued. -/
theorem getMCPTools_cache_hit (env : FetchEnv) (now : Nat) (st : CacheState)
    (ts : List ToolT) (hc : st.toolsCache = some ts) (hne : 0 < ts.length)
    (hage : now - st.lastFetchTime < toolCacheTTL) :
    GetMCPTools env now st false = ⟨Except.ok ts, st, 0⟩ := by
  unfold GetMCPTools cacheFresh
  rw [hc]
  simp [hne, hage]

/-- Concrete instantiation of `getMCPTools_cache_hit`. -/
theorem getMCPTools_cache_hit_witness :
    GetMCPTools ⟨fun _ => Except.error "down", fun _ => Except.error "down"⟩ 5
        ⟨some ["k8s_get_pod"], 0⟩ false =
      ⟨Except.ok ["k8s_get_pod"], ⟨some ["k8s_get_pod"], 0⟩, 0⟩ :=
  getMCPTools_cache_hit _ 5 _ ["k8s_get_pod"] rfl (by decide) (by decide)

/-- C9: whenever `GetMCPTools` returns an error — failing to get the
client, a failing retry loop, or an empty fetched tool list — the
cache state is exactly the one before the call. -/
theorem getMCPTools_error_frame (env : FetchEnv) (now : Nat) (st : CacheState)
    (forceRefresh : Bool) (e : String)
    (he : (GetMCPTools env now st forceRefresh).result = Except.error e) :
    (GetMCPTools env now st forceRefresh).cache = st := by
  by_cases hb : (!forceRefresh && cacheFresh now st) = true
  · simp [GetMCPTools, hb]
  · rw [Bool.not_eq_true] at hb
    cases hg : env.getClient 0 with
    | error e2 => simp [GetMCPTools, hb, hg]
    | ok u =>
      cases hr : (fetchLoop env.fetch env.getClient 4 0).result with
      | error e2 => simp [GetMCPTools, hb, hg, hr]
      | ok tools =>
        by_cases hlen : tools.length = 0
        · simp [GetMCPTools, hb, hg, hr, hlen]
        · exfalso
          simp [GetMCPTools, hb, hg, hr, hlen] at he

/-- Concrete instantiation of `getMCPTools_error_frame`. -/
theorem getMCPTools_error_frame_witness :
    (GetMCPTools ⟨fun _ => Except.error "dial tcp: connection refused",
        fun _ => Except.error "x"⟩ 0 ⟨some ["t"], 0⟩ true).cache =
      ⟨some ["t"], 0⟩ :=
  getMCPTools_error_frame _ 0 _ true
    ("获取MCP客户端失败: " ++ "dial tcp: connection refused") rfl

/-- C2: on a fetch (cache bypassed) with client acquisition always
succeeding: if every attempt fails with a connection-class error then
exactly 4 `mcpp.GetTools` attempts are issued and the 4th failure
propagates an error (no 5th attempt); and if the first `j` attempts
fail with connection-class errors and attempt `j` fails with a
non-connection-class error, the call returns an error after exactly
`j + 1` attempts. -/
theorem getMCPTools_retry_bound (env : FetchEnv) (now : Nat) (st : CacheState)
    (hcli : ∀ k, env.getClient k = Except.ok ()) :
    ((∀ i, i < 4 → ∃ m, env.fetch i = Except.error m ∧ isConnectionFetchError m = true) →
      (GetMCPTools env now st true).rpcCalls = 4 ∧
      ∃ e, (GetMCPTools env now st true).result = Except.error e) ∧
    (∀ j, j < 4 →
      (∀ i, i < j → ∃ m, env.fetch i = Except.error m ∧ isConnectionFetchError m = true) →
      ∀ m, env.fetch j = Except.error m → isConnectionFetchError m = false →
      (GetMCPTools env now st true).rpcCalls = j + 1 ∧
      ∃ e, (GetMCPTools env now st true).result = Except.error e) := by
  constructor
  · intro hconn
    obtain ⟨m0, hf0, hc0⟩ := hconn 0 (by omega)
    obtain ⟨m1, hf1, hc1⟩ := hconn 1 (by omega)
    obtain ⟨m2, hf2, hc2⟩ := hconn 2 (by omega)
    obtain ⟨m3, hf3, hc3⟩ := hconn 3 (by omega)
    have hl : fetchLoop env.fetch env.getClient 4 0 =
        ⟨Except.error ("获取MCP工具失败，可能是超时或会话ID无效: " ++ m3), 4⟩ := by
      simp [fetchLoop, hf0, hc0, hf1, hc1, hf2, hc2, hf3, hc3,
        hcli 1, hcli 2, hcli 3]
    refine ⟨?_, ?_⟩ <;> simp [GetMCPTools, hcli 0, hl]
  · intro j hj hconn m hm hnc
    interval_cases j
    · have hl : fetchLoop env.fetch env.getClient 4 0 =
          ⟨Except.error ("获取MCP工具失败: " ++ m), 1⟩ := by
        simp [fetchLoop, hm, hnc]
      refine ⟨?_, ?_⟩ <;> simp [GetMCPTools, hcli 0, hl]
    · obtain ⟨m0, hf0, hc0⟩ := hconn 0 (by omega)
      have hl : fetchLoop env.fetch env.getClient 4 0 =
          ⟨Except.error ("获取MCP工具失败: " ++ m), 2⟩ := by
        simp [fetchLoop, hf0, hc0, hcli 1, hm, hnc]
      refine ⟨?_, ?_⟩ <;> simp [GetMCPTools, hcli 0, hl]
    · obtain ⟨m0, hf0, hc0⟩ := hconn 0 (by omega)
      obtain ⟨m1, hf1, hc1⟩ := hconn 1 (by omega)
      have hl : fetchLoop env.fetch env.getClient 4 0 =
          ⟨Except.error ("获取MCP工具失败: " ++ m), 3⟩ := by
        simp [fetchLoop, hf0, hc0, hf1, hc1, hcli 1, hcli 2, hm, hnc]
      refine ⟨?_, ?_⟩ <;> simp [GetMCPTools, hcli 0, hl]
    · obtain ⟨m0, hf0, hc0⟩ := hconn 0 (by omega)
      obtain ⟨m1, hf1, hc1⟩ := hconn 1 (by omega)
      obtain ⟨m2, hf2, hc2⟩ := hconn 2 (by omega)
      have hl : fetchLoop env.fetch env.getClient 4 0 =
          ⟨Except.error ("获取MCP工具失败: " ++ m), 4⟩ := by
        simp [fetchLoop, hf0, hc0, hf1, hc1, hf2, hc2,
          hcli 1, hcli 2, hcli 3, hm, hnc]
      refine ⟨?_, ?_⟩ <;> simp [GetMCPTools, hcli 0, hl]

/-- A fetch environment in which every attempt fails with a
connection-class error. -/
def envAllConnErrors : FetchEnv :=
  ⟨fun _ => Except.ok (), fun _ => Except.error "SSE stream closed unexpectedly"⟩

/-- Concrete instantiation of `getMCPTools_retry_bound`: four attempts,
then the error propagates. -/
theorem getMCPTools_retry_bound_witness :
    (GetMCPTools envAllConnErrors 0 ⟨none, 0⟩ true).rpcCalls = 4 ∧
    ∃ e, (GetMCPTools envAllConnErrors 0 ⟨none, 0⟩ true).result = Except.error e :=
  (getMCPTools_retry_bound envAllConnErrors 0 ⟨none, 0⟩ (fun _ => rfl)).1
    (fun _ _ => ⟨"SSE stream closed unexpectedly", rfl, by decide⟩)

/-- C10: `RefreshSession` on a manager with no live client is a
complete no-op: the failure flag, last connection error, last-connect
instant and expiry timer are all left unchanged. -/
theorem refreshSession_no_client (now : Nat) (st : CMState)
    (h : st.client = none) : RefreshSession now st = st := by
  unfold RefreshSession
  rw [h]

/-- Concrete instantiation of `refreshSession_no_client`. -/
theorem refreshSession_no_client_witness :
    RefreshSession 999 ⟨ConnState.failed, none, "", 3, true, some "boom", some 7⟩ =
      ⟨ConnState.failed, none, "", 3, true, some "boom", some 7⟩ :=
  refreshSession_no_client 999 _ rfl

/-- A manager state whose connection-state enum is `failed` while the
failure flag is clear and a live client with a session ID exists: such
a state is reached when `GetClient`'s direct `connect` path succeeds
(it never writes `m.state`) after an earlier failed `ensureConnected`. -/
def cmStateC4 : CMState :=
  ⟨ConnState.failed, some (), "session-170000", 0, false, none, some 1800⟩

/-- C4 counterexample: at age 0 `HealthCheck` returns true on a state
whose connection-state enum is not `connected` — the code never
consults the enum, so "returns true iff the session state is
Connected …" fails; and on the same state at age 1300 s (> 20 min) the
call self-deadlocks instead of refreshing and returning true, so the
claim's exception clause fails as well. -/
theorem healthCheck_state_counterexample :
    (HealthCheck 0 cmStateC4 = some (true, cmStateC4) ∧
      cmStateC4.connState ≠ ConnState.connected) ∧
    HealthCheck 1300 cmStateC4 = none := by
  refine ⟨⟨rfl, by decide⟩, rfl⟩

/-- C4 amended: a completed `HealthCheck` call returns true iff the
connection-failed flag is clear, a live client exists, the session ID
is non-empty, and the last-connect age is within the 20-minute
hard-refresh threshold (the connection-state enum is never consulted);
when the first three checks pass but the age exceeds the threshold,
the call never returns — it invokes `RefreshSession` while still
holding the connect lock it already owns. -/
theorem healthCheck_spec (now : Nat) (st : CMState) :
    (HealthCheck now st = some (true, st) ↔
      st.connectionFailed = false ∧ st.client.isSome ∧ st.sessionID ≠ "" ∧
      now - st.lastConnectTime ≤ hardRefreshAge) ∧
    (st.connectionFailed = false → st.client.isSome → st.sessionID ≠ "" →
      hardRefreshAge < now - st.lastConnectTime →
      HealthCheck now st = none) := by
  obtain ⟨cs, cl, sid, lct, cf, lce, ed⟩ := st
  cases cf <;> rcases cl with _ | ⟨⟩ <;> by_cases hs : sid = "" <;>
    by_cases ha : hardRefreshAge < now - lct <;>
    simp_all [HealthCheck]
  omega

/-- Concrete instantiation of `healthCheck_spec`: an aged session that
passes the first three checks makes the call hang instead of
returning. -/
theorem healthCheck_spec_witness :
    HealthCheck 1300 ⟨ConnState.connected, some (), "s1", 0, false, none, some 1800⟩ =
      none :=
  (healthCheck_spec 1300 _).2 rfl rfl (by decide) (by decide)

/-- C3: trimming keeps the first entry (the System message) at index 0,
bounds the length by `maxHistoryItems + 1` (11), and when a trim
actually happens the retained tail is exactly the most recent
`maxHistoryItems` entries in their original order. -/
theorem trimDialogHistory_spec (d : List Msg) (m : Msg) (h : d.head? = some m) :
    (trimDialogHistory d).head? = some m ∧
    (trimDialogHistory d).length ≤ maxHistoryItems + 1 ∧
    (maxHistoryItems + 1 < d.length →
      (trimDialogHistory d).drop 1 = d.drop (d.length - maxHistoryItems)) := by
  unfold trimDialogHistory
  split
  · rename_i hlen
    cases d with
    | nil => simp at h
    | cons a t =>
      simp only [List.head?_cons, Option.some.injEq] at h
      subst h
      refine ⟨by simp, ?_, ?_⟩
      · simp only [List.length_append, List.length_take, List.length_drop,
          List.length_cons] at *
        omega
      · intro _
        simp
  · rename_i hlen
    refine ⟨h, by omega, by omega⟩

/-- A 13-entry dialog: one System message and 12 user turns. -/
def dialog13 : List Msg :=
  ⟨Role.system, "sys"⟩ :: (List.range 12).map (fun i => ⟨Role.user, toString i⟩)

/-- Concrete instantiation of `trimDialogHistory_spec`: a 13-entry
dialog is trimmed to the System message plus the last 10 entries. -/
theorem trimDialogHistory_witness :
    (trimDialogHistory dialog13).head? = some ⟨Role.system, "sys"⟩ ∧
    (trimDialogHistory dialog13).length ≤ maxHistoryItems + 1 :=
  ⟨(trimDialogHistory_spec dialog13 ⟨Role.system, "sys"⟩ rfl).1,
   (trimDialogHistory_spec dialog13 ⟨Role.system, "sys"⟩ rfl).2.1⟩

/-- C7 counterexample: an agent-turn error that carries the
tool-timeout fingerprint but also the substring "connection" is
classified by `processCommand` as a connection error first: the reply
announces reconnection (not simplification) and
`MarkConnectionFailed` is called. -/
theorem toolTimeout_counterexample :
    isToolTimeoutError "tool call failed: connection deadline exceeded" = true ∧
    classifyGenerateError "tool call failed: connection deadline exceeded" =
      (ReplyKind.reconnect, true) := by
  constructor
  · decide
  · decide

/-- C7 amended: an agent-turn error carrying the tool-timeout
fingerprint and not matching the connection fingerprint (none of
"connection", "timeout", "EOF", "Invalid session ID") yields the
simplify-and-retry reply and does not call `MarkConnectionFailed`. -/
theorem toolTimeout_reply (msg : String)
    (ht : isToolTimeoutError msg = true)
    (hc : isConnectionError msg = false) :
    classifyGenerateError msg = (ReplyKind.simplify, false) := by
  unfold classifyGenerateError
  simp [hc, ht]

/-- Concrete instantiation of `toolTimeout_reply`. -/
theorem toolTimeout_reply_witness :
    classifyGenerateError "eino: execute node[tools]: context deadline exceeded" =
      (ReplyKind.simplify, false) :=
  toolTimeout_reply _ (by decide) (by decide)

end McpDevops
